import Mathlib

/-!
Verification of the command-execution engine of `personal_server`
(`src/personal_server/commands.py`) against its specification.

The engine consists of three runners:
* `run_command`  — one shell command via `subprocess.run` (lines 10-47);
* `run_commands` — a sequential batch with internal `cd` interception
  (lines 50-119);
* `run_commands_single_shell` — the whole batch compiled into one POSIX
  shell script whose combined output is re-segmented with sentinel
  markers (lines 122-223).

The operating system (process spawning, wall-clock time, `uuid.uuid4`)
is abstracted into an oracle `OS`.  A Python exception travelling out of
`subprocess.run` is the `Except.error` case of the oracle's answer;
`try`/`except` blocks in the source become `match` on that answer.
Wall-clock measurements (`round(time.time() - start, 4)`) are abstracted
to the oracle value `OS.elapsed`; the claims only distinguish measured
(`some`) from unmeasured (`none`) durations.
-/

set_option maxRecDepth 100000

namespace PersonalServer

/-- Python whitespace test used by `str.strip` and no-argument `str.split`,
restricted to the ASCII whitespace characters (space, tab, newline,
carriage return, vertical tab, form feed).  Unicode whitespace is not
modelled; none of the strings handled by the engine's parser contains it. -/
def isPyWS (c : Char) : Bool :=
  (c == ' ') || (c == '\t') || (c == '\n') || (c == '\r') ||
    (c == Char.ofNat 11) || (c == Char.ofNat 12)

/-- Python `str.strip()` with no arguments: drop leading and trailing
whitespace. -/
def pyStrip (s : String) : String :=
  String.mk (((s.toList.dropWhile isPyWS).reverse.dropWhile isPyWS).reverse)

/-- Splitting a character list at every character satisfying `p`,
keeping empty tokens; `acc` holds the current token reversed. -/
def splitChars (p : Char → Bool) : List Char → List Char → List String
  | [], acc => [String.mk acc.reverse]
  | c :: rest, acc =>
    if p c then String.mk acc.reverse :: splitChars p rest []
    else splitChars p rest (c :: acc)

/-- Python `str.split()` with no arguments: split on runs of whitespace,
discarding empty tokens. -/
def pySplit (s : String) : List String :=
  (splitChars isPyWS s.toList []).filter (fun t => t ≠ "")

/-- Python `str.startswith(pre)`: codepoint-prefix test. -/
def pyStartsWith (s pre : String) : Bool :=
  pre.toList.isPrefixOf s.toList

/-- Worker for `pySplitlines`; `acc` holds the current line reversed. -/
def splitlinesAux : List Char → List Char → List String
  | [], acc => if acc.isEmpty then [] else [String.mk acc.reverse]
  | '\r' :: '\n' :: rest, acc => String.mk acc.reverse :: splitlinesAux rest []
  | '\r' :: rest, acc => String.mk acc.reverse :: splitlinesAux rest []
  | '\n' :: rest, acc => String.mk acc.reverse :: splitlinesAux rest []
  | c :: rest, acc => splitlinesAux rest (c :: acc)

/-- Python `str.splitlines()` for the line boundaries `\n`, `\r\n` and `\r`
(the exotic boundaries `\v`, `\f`, `\x1c`-`\x1e`, `\x85`, U+2028/9 are not
modelled; `subprocess` text mode already normalises `\r\n` and `\r` to
`\n`).  A trailing terminator produces no empty final line. -/
def pySplitlines (s : String) : List String :=
  splitlinesAux s.toList []

/-- Worker for `pyInt`: decimal digits with single `_` separators between
digits.  `prev` records whether the previous character was a digit, so a
`_` is accepted only directly after a digit and the token must end in a
digit. -/
def pyDigitsAux : List Char → Nat → Bool → Option Nat
  | [], acc, true => some acc
  | [], _, false => none
  | c :: rest, acc, prev =>
    if c.isDigit then pyDigitsAux rest (acc * 10 + (c.toNat - 48)) true
    else if (c == '_') && prev then pyDigitsAux rest acc false
    else none

/-- Python `int(token)` on a whitespace-free token (the tokens fed to it in
`commands.py` come from `str.split()`): an optional sign followed by
decimal digits, with Python 3's underscore digit grouping.  `none` models
the `ValueError` caught by the `except` on line 190. -/
def pyInt (s : String) : Option Int :=
  match s.toList with
  | '+' :: rest => (pyDigitsAux rest 0 false).map (fun n => (n : Int))
  | '-' :: rest => (pyDigitsAux rest 0 false).map (fun n => -(n : Int))
  | l => (pyDigitsAux l 0 false).map (fun n => (n : Int))

/-- Python `cwd or None` for an optional string argument: both `None` and
the empty string are falsy and collapse to `None`. -/
def pyOr : Option String → Option String
  | some "" => none
  | none => none
  | some s => some s

/-- A normally finished process, as returned by `subprocess.run`
(text mode): exit code plus captured output streams. -/
structure Completed where
  returncode : Int
  stdout : String
  stderr : String
  deriving Repr, DecidableEq

/-- A Python exception escaping `subprocess.run`:
`subprocess.TimeoutExpired` (whose `stdout`/`stderr` attributes may be
`None`, hence `Option`) or any other `Exception` (e.g. the `OSError` of
an invalid `cwd`), carrying its message. -/
inductive PyExn where
  | timeoutExpired (stdout stderr : Option String)
  | other (msg : String)
  deriving Repr, DecidableEq

/-- The operating-system oracle.  `exec cmd timeout cwd` is the outcome of
`subprocess.run(cmd, shell=True, capture_output=True, text=True, ...)`;
`elapsed` abstracts the measured wall-clock duration of a step;
`freshHex` is the `uuid.uuid4().hex` value of the request. -/
structure OS where
  exec : String → Option Nat → Option String → Except PyExn Completed
  elapsed : Nat
  freshHex : String

/-- The per-command result dictionary built by `run_command` (and by the
`cd` branch of `run_commands`).  `duration_sec` is `none` exactly when the
source stores Python `None` (single-session mode). -/
structure CommandResult where
  ok : Bool
  code : Option Int
  stdout : String
  stderr : String
  duration_sec : Option Nat
  deriving Repr, DecidableEq

/-- A `CommandResult` tagged with the command text that produced it:
`{"cmd": c, **result}` in `run_commands` (line 107) and the dictionaries
built by the single-session parser (lines 194-203). -/
structure StepResult extends CommandResult where
  cmd : String
  deriving Repr, DecidableEq

/-- The aggregate dictionary of a batch.  `exit_code` is present only in
single-session mode (`none` models the key being absent). -/
structure AggregateResult where
  ok : Bool
  stop_on_error : Bool
  stopped : Bool
  results : List StepResult
  exit_code : Option Int
  deriving Repr, DecidableEq

/-- `run_command` (commands.py lines 10-47): run one command in a shell;
every exception of `subprocess.run` is caught, so the function always
returns a result dictionary.  `ok` is Python `proc.returncode == 0`. -/
def run_command (os : OS) (cmd : String) (timeout : Option Nat)
    (cwd : Option String) : CommandResult :=
  match os.exec cmd timeout (pyOr cwd) with
  | .ok proc =>
      { ok := decide (proc.returncode = 0)
        code := some proc.returncode
        stdout := proc.stdout
        stderr := proc.stderr
        duration_sec := some os.elapsed }
  | .error (.timeoutExpired out err) =>
      { ok := false
        code := none
        stdout := out.getD ""
        stderr := err.getD "" ++ "\nTIMEOUT"
        duration_sec := some os.elapsed }
  | .error (.other msg) =>
      { ok := false
        code := none
        stdout := ""
        stderr := "ERROR: " ++ msg
        duration_sec := some os.elapsed }

/-- An ASCII single-quote character as a string (kept out of string
literals for hygiene). -/
def sq : String := (Char.ofNat 39).toString

/-- The message of the `NameError` raised on line 68 of commands.py,
formatted by the handler on line 95: `f"cd error: {e}"`. -/
def cdErrMsg : String :=
  "cd error: name " ++ sq ++ "Path" ++ sq ++ " is not defined"

/-- The outcome of the `cd` interception branch of `run_commands`
(commands.py lines 64-103).  The module imports `subprocess`, `time`,
`os`, `uuid` and `typing` only — `pathlib.Path` is never imported — so the
first statement of the `try` block, `base = Path(current_cwd) ...`
(line 68), raises `NameError: name 'Path' is not defined` on every
execution.  The `except Exception` handler on line 95 turns this into an
error result, which makes the directory-resolution logic of lines 68-94
unreachable: an intercepted `cd` can never succeed and the
current-directory state can never change. -/
def cdNameError (os : OS) : CommandResult :=
  { ok := false
    code := some 1
    stdout := ""
    stderr := cdErrMsg
    duration_sec := some os.elapsed }

/-- One step of the sequential runner's dispatch (commands.py lines
64-105) for an already-stripped nonempty command `c`: intercept `cd`
(which, per `cdNameError`, always fails), otherwise delegate to
`run_command` with the current-directory state as `cwd`. -/
def stepResultFor (os : OS) (timeout : Option Nat) (cur : Option String)
    (c : String) : CommandResult :=
  if (c == "cd") || pyStartsWith c "cd " then cdNameError os
  else run_command os c timeout cur

/-- The iteration of `run_commands` (commands.py lines 58-111), returning
the accumulated results together with the `stopped` flag.  `cur` is the
`current_cwd` state; it is threaded but never updated, because the only
assignment to it (line 86) sits in the unreachable success branch of the
`cd` interception. -/
def runLoop (os : OS) (timeout : Option Nat) (stopOnError : Bool)
    (cur : Option String) : List String → List StepResult × Bool
  | [] => ([], false)
  | raw :: rest =>
    if pyStrip raw = "" then runLoop os timeout stopOnError cur rest
    else
      if stopOnError && !(stepResultFor os timeout cur (pyStrip raw)).ok then
        ([{ toCommandResult := stepResultFor os timeout cur (pyStrip raw)
            cmd := pyStrip raw }], true)
      else
        ({ toCommandResult := stepResultFor os timeout cur (pyStrip raw)
           cmd := pyStrip raw } :: (runLoop os timeout stopOnError cur rest).1,
         (runLoop os timeout stopOnError cur rest).2)

/-- The submitted command list after the sequential runner's per-entry
`str(raw).strip()` and the skipping of entries that become empty
(commands.py lines 59-61). -/
def filteredCmds (cmds : List String) : List String :=
  (cmds.map pyStrip).filter (fun c => c ≠ "")

/-- `run_commands` (commands.py lines 50-119): sequential batch runner. -/
def run_commands (os : OS) (cmds : List String) (timeout : Option Nat)
    (cwd : Option String) (stop_on_error : Bool) : AggregateResult :=
  { ok := (runLoop os timeout stop_on_error (pyOr cwd) cmds).1.all (fun r => r.ok)
    stop_on_error := stop_on_error
    stopped := (runLoop os timeout stop_on_error (pyOr cwd) cmds).2
    results := (runLoop os timeout stop_on_error (pyOr cwd) cmds).1
    exit_code := none }

/-- The five script lines emitted for the command at index `i`
(commands.py lines 149-157). -/
def scriptLinesFor (i : Nat) (c : String) : List String :=
  [ "echo \"$DELIM BEGIN " ++ toString i ++ "\""
  , c
  , "code=$?"
  , "echo \"$DELIM END " ++ toString i ++ " $code\""
  , "[ \"$STOP_ON_ERROR\" = \"1\" ] && [ $code -ne 0 ] && exit $code" ]

/-- The generated POSIX shell script (commands.py lines 141-159). -/
def buildScript (delim : String) (cmds : List String)
    (stop_on_error : Bool) : String :=
  String.intercalate "\n"
    ( [ "#!/bin/sh"
      , "exec 2>&1"
      , "STOP_ON_ERROR=" ++ (if stop_on_error then "1" else "0")
      , "DELIM=" ++ sq ++ delim ++ sq ]
      ++ (cmds.enum.map (fun p => scriptLinesFor p.1 p.2)).flatten) ++ "\n"

/-- The delimiter token of a request: `f"__PS_DELIM_{uuid.uuid4().hex}__"`
(commands.py line 138). -/
def delimOf (os : OS) : String := "__PS_DELIM_" ++ os.freshHex ++ "__"

/-- The mutable state of the single-session output parser (commands.py
lines 172-176): accumulated results, the index of the currently open
segment (`-1` when none is open), the open segment's line buffer, and the
next expected index. -/
structure ParseState where
  results : List StepResult
  idx : Int
  buf : List String
  expected : Nat
  deriving Repr, DecidableEq

/-- Closing a segment (commands.py lines 193-207): append a result whose
`cmd` is looked up by the segment index when that index is in range of
the submitted list and the empty string otherwise, then reset the
segment state and advance `expected`. -/
def closeSegment (cmds : List String) (st : ParseState)
    (seg_i code : Int) : ParseState :=
  { results := st.results ++
      [{ cmd := if 0 ≤ seg_i ∧ seg_i < (cmds.length : Int) then
                  cmds.getD seg_i.toNat "" else ""
         ok := decide (code = 0)
         code := some code
         stdout := String.intercalate "\n" st.buf
         stderr := ""
         duration_sec := none }]
    idx := -1
    buf := []
    expected := st.expected + 1 }

/-- The fall-through of the parser's loop body (commands.py lines
208-210): a line that closed no segment is appended to the open segment's
buffer, or discarded when no segment is open. -/
def appendLine (st : ParseState) (line : String) : ParseState :=
  if 0 ≤ st.idx then { st with buf := st.buf ++ [line] } else st

/-- One iteration of the single-session output parser (commands.py lines
177-210).  A line whose stripped form equals `"<delim> BEGIN <expected>"`
opens a segment; a line starting with `"<delim> END "` that splits into
at least four fields closes one, falling back to index
`idx if idx >= 0 else expected` and code `1` when the `int()` conversions
of line 188-189 fail; every other line (including an END-prefixed line
with fewer than four fields) falls through to `appendLine`.  The source
indexes `parts[2]`/`parts[3]` directly, which the length guard makes
safe; `List.getD` renders that total. -/
def parseStep (delim : String) (cmds : List String) (st : ParseState)
    (line : String) : ParseState :=
  if pyStrip line = delim ++ " BEGIN " ++ toString st.expected then
    { st with idx := (st.expected : Int), buf := [] }
  else if pyStartsWith line (delim ++ " END ") then
    if 4 ≤ (pySplit (pyStrip line)).length
        ∧ (pySplit (pyStrip line)).getD 0 "" = delim
        ∧ (pySplit (pyStrip line)).getD 1 "" = "END" then
      match pyInt ((pySplit (pyStrip line)).getD 2 ""),
            pyInt ((pySplit (pyStrip line)).getD 3 "") with
      | some seg_i, some code => closeSegment cmds st seg_i code
      | _, _ =>
          closeSegment cmds st
            (if 0 ≤ st.idx then st.idx else (st.expected : Int)) 1
    else appendLine st line
  else appendLine st line

/-- The whole parsing pass of `run_commands_single_shell` over the
captured combined output (commands.py lines 170-210). -/
def parseSegments (delim : String) (cmds : List String)
    (out : String) : List StepResult :=
  ((pySplitlines out).foldl (parseStep delim cmds)
    { results := [], idx := -1, buf := [], expected := 0 }).results

/-- `run_commands_single_shell` (commands.py lines 122-223).  The
`subprocess.run` call on lines 161-168 is not wrapped in `try`/`except`,
so an oracle error (timeout expiry, launch failure) propagates to the
caller: the function's result type is `Except PyExn AggregateResult` and
the `.error` case is reachable for every nonempty command list. -/
def run_commands_single_shell (os : OS) (cmds : List String)
    (timeout : Option Nat) (cwd : Option String)
    (stop_on_error : Bool) : Except PyExn AggregateResult :=
  if cmds.isEmpty then
    .ok { ok := true, stop_on_error := stop_on_error, stopped := false
          results := [], exit_code := none }
  else
    match os.exec (buildScript (delimOf os) cmds stop_on_error) timeout
        (pyOr cwd) with
    | .error e => .error e
    | .ok proc =>
        .ok { ok := decide (proc.returncode = 0)
                && (parseSegments (delimOf os) cmds proc.stdout).all
                      (fun r => r.ok)
              stop_on_error := stop_on_error
              stopped := stop_on_error
                && decide ((parseSegments (delimOf os) cmds proc.stdout).length
                      < cmds.length)
              results := parseSegments (delimOf os) cmds proc.stdout
              exit_code := some proc.returncode }

/-- The data-model invariant of the spec: whenever `code` is present,
`ok` holds exactly when the code is zero. -/
def okCodeInv (r : CommandResult) : Prop :=
  ∀ c : Int, r.code = some c → r.ok = decide (c = 0)

/-- Invariant of every result appended by the single-session parser: the
`ok`/`code` relation holds, `cmd` is a submitted command or the empty
string, stderr is empty (merged into stdout) and duration is unmeasured. -/
def segInv (cmds : List String) (r : StepResult) : Prop :=
  okCodeInv r.toCommandResult ∧ (r.cmd ∈ cmds ∨ r.cmd = "")
    ∧ r.stderr = "" ∧ r.duration_sec = none

/-- Oracle on which every spawned process finishes at once with exit
code 0 and empty output. -/
def osZero : OS :=
  { exec := fun _ _ _ => .ok { returncode := 0, stdout := "", stderr := "" }
    elapsed := 0, freshHex := "ab" }

/-- Oracle on which every spawned process fails with exit code 1. -/
def osFail : OS :=
  { exec := fun _ _ _ => .ok { returncode := 1, stdout := "", stderr := "boom" }
    elapsed := 0, freshHex := "ab" }

/-- Oracle on which every spawn raises `subprocess.TimeoutExpired` with no
captured partial output. -/
def osTO : OS :=
  { exec := fun _ _ _ => .error (.timeoutExpired none none)
    elapsed := 0, freshHex := "ab" }

/-- Oracle on which every spawn raises `subprocess.TimeoutExpired` holding
partial captured output. -/
def osPartialTO : OS :=
  { exec := fun _ _ _ => .error (.timeoutExpired (some "partial") (some "errtxt"))
    elapsed := 3, freshHex := "ab" }

/-- Oracle whose every spawn emits a well-formed single-session marker
stream for one command (the `freshHex` is `"ab"`, so the delimiter is
`__PS_DELIM_ab__`). -/
def osShell : OS :=
  { exec := fun _ _ _ => .ok
      { returncode := 0
        stdout := "__PS_DELIM_ab__ BEGIN 0\nhello\n__PS_DELIM_ab__ END 0 0\n"
        stderr := "" }
    elapsed := 0, freshHex := "ab" }

/-- The step produced for the command `cd x` on `osZero` (the `NameError`
outcome of the broken `cd` interception). -/
def cdNameErrorStep : StepResult :=
  { cmd := "cd x", ok := false, code := some 1, stdout := ""
    stderr := cdErrMsg, duration_sec := some 0 }

/-- The step recovered by the single-session parser from `osShell`'s
canned output for the batch `["echo hello"]`. -/
def helloStep : StepResult :=
  { cmd := "echo hello", ok := true, code := some 0, stdout := "hello"
    stderr := "", duration_sec := none }

/-- The aggregate returned by `run_commands_single_shell` on `osShell`
for the batch `["echo hello"]`. -/
def helloAgg : AggregateResult :=
  { ok := true, stop_on_error := false, stopped := false
    results := [helloStep], exit_code := some 0 }

/-- The step produced for the command `a` on `osZero`. -/
def okStepA : StepResult :=
  { cmd := "a", ok := true, code := some 0, stdout := ""
    stderr := "", duration_sec := some 0 }

/-! ## Helper lemmas -/

/-- `List.getD` at an in-range index is a member of the list. -/
theorem getD_mem_of_lt {α : Type} (l : List α) (n : Nat) (d : α)
    (h : n < l.length) : l.getD n d ∈ l := by
  induction l generalizing n with
  | nil => simp at h
  | cons a tl ih =>
    cases n with
    | zero => simp [List.getD]
    | succ m =>
      have hm : m < tl.length := by simpa using h
      exact List.mem_cons_of_mem a (by simpa [List.getD] using ih m hm)

/-- `run_command` satisfies the `ok`/`code` invariant in all three arms of
its `try`/`except`. -/
theorem run_command_okCode (os : OS) (cmd : String) (t : Option Nat)
    (cwd : Option String) : okCodeInv (run_command os cmd t cwd) := by
  intro i hi
  unfold run_command at hi ⊢
  revert hi
  split
  · intro hi
    injection hi with h
    show decide _ = _
    rw [h]
  · intro hi
    exact Option.noConfusion hi
  · intro hi
    exact Option.noConfusion hi

/-- The dispatch of one sequential step satisfies the `ok`/`code`
invariant: the `cd` branch yields `ok=false, code=1`, the other branch is
`run_command`. -/
theorem stepResultFor_okCode (os : OS) (t : Option Nat) (cur : Option String)
    (c : String) : okCodeInv (stepResultFor os t cur c) := by
  unfold stepResultFor
  split
  · intro i hi
    injection hi with h
    rw [← h]
    show (false : Bool) = decide ((1 : Int) = 0)
    decide
  · exact run_command_okCode os c t cur

/-- Every result accumulated by the sequential loop satisfies the
`ok`/`code` invariant. -/
theorem runLoop_okCode (os : OS) (t : Option Nat) (b : Bool)
    (cur : Option String) :
    ∀ cmds : List String, ∀ r ∈ (runLoop os t b cur cmds).1,
      okCodeInv r.toCommandResult := by
  intro cmds
  induction cmds with
  | nil => intro r hr; simp [runLoop] at hr
  | cons raw rest ih =>
    intro r hr
    simp only [runLoop] at hr
    by_cases hc : pyStrip raw = ""
    · rw [if_pos hc] at hr
      exact ih r hr
    · rw [if_neg hc] at hr
      by_cases hstop : (b && !(stepResultFor os t cur (pyStrip raw)).ok) = true
      · rw [if_pos hstop] at hr
        have hr2 : r = { toCommandResult := stepResultFor os t cur (pyStrip raw)
                         cmd := pyStrip raw } := by simpa using hr
        subst hr2
        exact stepResultFor_okCode os t cur (pyStrip raw)
      · rw [if_neg hstop] at hr
        rcases List.mem_cons.1 hr with h3 | h3
        · subst h3
          exact stepResultFor_okCode os t cur (pyStrip raw)
        · exact ih r h3

/-- The command texts of the sequential loop's results form a prefix of
the stripped-and-filtered input, and the whole of it when the loop was
not stopped early. -/
theorem runLoop_cmds (os : OS) (t : Option Nat) (b : Bool)
    (cur : Option String) :
    ∀ cmds : List String,
      ((runLoop os t b cur cmds).1.map (fun r => r.cmd) <+: filteredCmds cmds)
      ∧ ((runLoop os t b cur cmds).2 = false →
          (runLoop os t b cur cmds).1.map (fun r => r.cmd) = filteredCmds cmds) := by
  intro cmds
  induction cmds with
  | nil => exact ⟨List.nil_prefix, fun _ => rfl⟩
  | cons raw rest ih =>
    by_cases hc : pyStrip raw = ""
    · have hf : filteredCmds (raw :: rest) = filteredCmds rest := by
        simp [filteredCmds, List.filter_cons, hc]
      simp only [runLoop]
      rw [hf, if_pos hc]
      exact ih
    · have hf : filteredCmds (raw :: rest) = pyStrip raw :: filteredCmds rest := by
        simp [filteredCmds, List.filter_cons, hc]
      simp only [runLoop]
      rw [hf, if_neg hc]
      by_cases hstop : (b && !(stepResultFor os t cur (pyStrip raw)).ok) = true
      · rw [if_pos hstop]
        refine ⟨⟨filteredCmds rest, rfl⟩, ?_⟩
        intro habs
        exact absurd habs (by simp)
      · rw [if_neg hstop]
        obtain ⟨pre, hpre⟩ := ih.1
        refine ⟨⟨pre, ?_⟩, ?_⟩
        · simp only [List.map_cons, List.cons_append, hpre]
        · intro h2
          simp only [List.map_cons, ih.2 h2]

/-- With `stop_on_error = true`: if the loop did not stop, every recorded
result succeeded; if it stopped, the results end at a failing step
preceded only by successes. -/
theorem runLoop_stop (os : OS) (t : Option Nat) (cur : Option String) :
    ∀ cmds : List String,
      ((runLoop os t true cur cmds).2 = false →
        ∀ r ∈ (runLoop os t true cur cmds).1, r.ok = true)
      ∧ ((runLoop os t true cur cmds).2 = true →
        ∃ rs r, (runLoop os t true cur cmds).1 = rs ++ [r]
          ∧ r.ok = false ∧ ∀ x ∈ rs, x.ok = true) := by
  intro cmds
  induction cmds with
  | nil =>
    refine ⟨fun _ r hr => ?_, fun habs => ?_⟩
    · simp [runLoop] at hr
    · simp [runLoop] at habs
  | cons raw rest ih =>
    simp only [runLoop]
    by_cases hc : pyStrip raw = ""
    · rw [if_pos hc]
      exact ih
    · rw [if_neg hc]
      by_cases hok : (stepResultFor os t cur (pyStrip raw)).ok = true
      · have hcond : ¬((true && !(stepResultFor os t cur (pyStrip raw)).ok) = true) := by
          simp [hok]
        rw [if_neg hcond]
        constructor
        · intro h2 r hr
          rcases List.mem_cons.1 hr with h3 | h3
          · subst h3; exact hok
          · exact ih.1 h2 r h3
        · intro h2
          obtain ⟨rs, r, hsplit, hrok, hall⟩ := ih.2 h2
          refine ⟨{ toCommandResult := stepResultFor os t cur (pyStrip raw)
                    cmd := pyStrip raw } :: rs, r, by rw [hsplit]; rfl, hrok, ?_⟩
          intro x hx
          rcases List.mem_cons.1 hx with h3 | h3
          · subst h3; exact hok
          · exact hall x h3
      · have hok2 : (stepResultFor os t cur (pyStrip raw)).ok = false := by
          simpa [Bool.not_eq_true] using hok
        have hcond : (true && !(stepResultFor os t cur (pyStrip raw)).ok) = true := by
          simp [hok2]
        rw [if_pos hcond]
        constructor
        · intro habs
          exact absurd habs (by simp)
        · intro _
          exact ⟨[], _, rfl, hok2, by simp⟩

/-- With `stop_on_error = false` the sequential loop never stops early. -/
theorem runLoop_no_stop (os : OS) (t : Option Nat) (cur : Option String) :
    ∀ cmds : List String, (runLoop os t false cur cmds).2 = false := by
  intro cmds
  induction cmds with
  | nil => rfl
  | cons raw rest ih =>
    simp only [runLoop]
    by_cases hc : pyStrip raw = ""
    · rw [if_pos hc]
      exact ih
    · rw [if_neg hc]
      have hcond : ¬((false && !(stepResultFor os t cur (pyStrip raw)).ok) = true) := by
        simp
      rw [if_neg hcond]
      exact ih

/-- `appendLine` never touches the accumulated results. -/
theorem appendLine_results (st : ParseState) (line : String) :
    (appendLine st line).results = st.results := by
  unfold appendLine
  split <;> rfl

/-- Closing a segment preserves the per-result invariant. -/
theorem closeSegment_inv (cmds : List String) (st : ParseState)
    (seg_i code : Int) (h : ∀ r ∈ st.results, segInv cmds r) :
    ∀ r ∈ (closeSegment cmds st seg_i code).results, segInv cmds r := by
  intro r hr
  unfold closeSegment at hr
  rcases List.mem_append.1 hr with hr | hr
  · exact h r hr
  · have hrr := List.mem_singleton.1 hr
    subst hrr
    refine ⟨?_, ?_, rfl, rfl⟩
    · intro i hi
      injection hi with h2
      show decide _ = _
      rw [h2]
    · by_cases hin : 0 ≤ seg_i ∧ seg_i < (cmds.length : Int)
      · left
        show (if 0 ≤ seg_i ∧ seg_i < (cmds.length : Int) then
          cmds.getD seg_i.toNat "" else "") ∈ cmds
        rw [if_pos hin]
        exact getD_mem_of_lt cmds seg_i.toNat "" (by omega)
      · right
        show (if 0 ≤ seg_i ∧ seg_i < (cmds.length : Int) then
          cmds.getD seg_i.toNat "" else "") = ""
        rw [if_neg hin]

/-- One parser iteration preserves the per-result invariant. -/
theorem parseStep_inv (delim : String) (cmds : List String) (st : ParseState)
    (line : String) (h : ∀ r ∈ st.results, segInv cmds r) :
    ∀ r ∈ (parseStep delim cmds st line).results, segInv cmds r := by
  unfold parseStep
  split
  · exact h
  · split
    · split
      · split <;> exact closeSegment_inv cmds st _ _ h
      · intro r hr
        rw [appendLine_results] at hr
        exact h r hr
    · intro r hr
      rw [appendLine_results] at hr
      exact h r hr

/-- The parser's fold preserves the per-result invariant. -/
theorem foldl_parseStep_inv (delim : String) (cmds : List String) :
    ∀ (lines : List String) (st : ParseState),
      (∀ r ∈ st.results, segInv cmds r) →
      ∀ r ∈ (lines.foldl (parseStep delim cmds) st).results, segInv cmds r := by
  intro lines
  induction lines with
  | nil => intro st h; simpa using h
  | cons l ls ih =>
    intro st h
    rw [List.foldl_cons]
    exact ih _ (parseStep_inv delim cmds st l h)

/-- Every result recovered by the single-session parser satisfies the
per-result invariant. -/
theorem parseSegments_inv (delim : String) (cmds : List String)
    (out : String) : ∀ r ∈ parseSegments delim cmds out, segInv cmds r := by
  unfold parseSegments
  exact foldl_parseStep_inv delim cmds _ _ (by intro r hr; simp at hr)

/-- Elimination for a successful single-session run: all results satisfy
the per-result invariant, and `stopped` is false when `stop_on_error` was
not requested. -/
theorem single_shell_ok_elim (os : OS) (cmds : List String) (t : Option Nat)
    (cwd : Option String) (s : Bool) (a : AggregateResult)
    (h : run_commands_single_shell os cmds t cwd s = .ok a) :
    (∀ r ∈ a.results, segInv cmds r) ∧ (s = false → a.stopped = false) := by
  unfold run_commands_single_shell at h
  revert h
  split
  · intro h
    injection h with h2
    subst h2
    refine ⟨fun r hr => ?_, fun _ => rfl⟩
    simp at hr
  · split
    · intro h
      exact Except.noConfusion h
    · intro h
      injection h with h2
      subst h2
      refine ⟨parseSegments_inv _ _ _, fun hs => ?_⟩
      subst hs
      rfl

/-! ## Claims -/

/-- Claim C1 (code bug).  The claim says an intercepted `cd` whose target
exists and is a directory succeeds with `ok=true`, `code=0`, `stdout` the
resolved path, updating the current-directory state, and that a bare `cd`
resolves to the home directory.  The code cannot do this: `pathlib.Path`
is never imported in commands.py, so line 68 raises `NameError` on every
intercepted `cd` (with or without argument, whatever the filesystem
holds) and the handler of line 95 yields `ok=false`, `code=1`,
`stderr="cd error: name 'Path' is not defined"`; the directory state
never changes.  This theorem evaluates the embedded code on the claim's
inputs. -/
theorem cd_interception_name_error :
    run_commands osZero ["cd /tmp"] none none false =
      { ok := false, stop_on_error := false, stopped := false,
        results := [{ cmd := "cd /tmp", ok := false, code := some 1,
                      stdout := "", stderr := cdErrMsg, duration_sec := some 0 }],
        exit_code := none }
    ∧ run_commands osZero ["cd"] none none false =
      { ok := false, stop_on_error := false, stopped := false,
        results := [{ cmd := "cd", ok := false, code := some 1,
                      stdout := "", stderr := cdErrMsg, duration_sec := some 0 }],
        exit_code := none } :=
  ⟨rfl, rfl⟩

/-- Claim C2, counterexample.  The claim says no runner ever raises an
unhandled error; but `run_commands_single_shell` does not guard its
`subprocess.run` call (commands.py lines 161-168), so a timeout expiry
propagates to the caller — here modelled as the runner returning the
`Except.error` of the oracle's `TimeoutExpired` instead of a result
structure. -/
theorem single_shell_timeout_escapes :
    run_commands_single_shell osTO ["sleep 5"] (some 1) none false =
      .error (.timeoutExpired none none) := rfl

/-- Claim C2, amended: `run_command` (and hence `run_commands`, whose `cd`
branch also catches every exception — see `cdNameError`) encodes every
`subprocess.run` failure into the returned result with `ok=false` and
`code=null`; `run_commands_single_shell`, by contrast, propagates any
exception of its `subprocess.run` call to its caller whenever the command
list is nonempty. -/
theorem runner_error_encoding_and_propagation :
    (∀ (os : OS) (cmd : String) (t : Option Nat) (cwd : Option String)
        (e : PyExn), os.exec cmd t (pyOr cwd) = .error e →
        (run_command os cmd t cwd).ok = false
          ∧ (run_command os cmd t cwd).code = none)
    ∧ (∀ (os : OS) (cmds : List String) (t : Option Nat) (cwd : Option String)
        (s : Bool) (e : PyExn), cmds ≠ [] →
        os.exec (buildScript (delimOf os) cmds s) t (pyOr cwd) = .error e →
        run_commands_single_shell os cmds t cwd s = .error e) := by
  constructor
  · intro os cmd t cwd e h
    unfold run_command
    rw [h]
    cases e <;> exact ⟨rfl, rfl⟩
  · intro os cmds t cwd s e hne h
    unfold run_commands_single_shell
    cases cmds with
    | nil => exact absurd rfl hne
    | cons a l =>
      rw [if_neg (by simp)]
      rw [h]

/-- Witness for `runner_error_encoding_and_propagation` at concrete
inputs. -/
theorem runner_error_encoding_witness :
    ((run_command osTO "x" none none).ok = false
      ∧ (run_command osTO "x" none none).code = none)
    ∧ run_commands_single_shell osTO ["x"] none none false =
        .error (.timeoutExpired none none) :=
  ⟨runner_error_encoding_and_propagation.1 osTO "x" none none
      (.timeoutExpired none none) rfl,
   runner_error_encoding_and_propagation.2 osTO ["x"] none none false
      (.timeoutExpired none none) (by simp) rfl⟩

/-- Claim C3, counterexample.  The claim says every result's `cmd` field
is character-for-character the corresponding submitted entry (after
empty-entry filtering for the sequential runner).  But the sequential
runner tags each result with `str(raw).strip()` (commands.py lines 59,
107): submitting `" ls "` — which is not whitespace-only and so survives
filtering — produces a result whose `cmd` is the stripped `"ls"`. -/
theorem sequential_cmd_field_stripped :
    (run_commands osZero [" ls "] none none false).results.map (fun r => r.cmd)
        = ["ls"]
    ∧ (run_commands osZero [" ls "] none none false).results.map (fun r => r.cmd)
        ≠ [" ls "] :=
  ⟨rfl, of_decide_eq_true rfl⟩

/-- Claim C3, amended: for the sequential runner every result's `cmd` is
the whitespace-stripped text of the corresponding surviving entry — the
recorded commands are a prefix of `filteredCmds cmds`, the whole of it
when not stopped early; for the single-session runner every result's
`cmd` is either the verbatim text of a submitted entry (the one at the
END marker's parsed index) or the empty string.  The fourth conjunct
pins the attribution to the parsed index: an END marker carrying an
in-range index `seg_i` appends a result whose `cmd` is exactly the
submitted entry at position `seg_i` (commands.py line 196), whatever
segment is open and whatever index is expected. -/
theorem cmd_attribution (os : OS) (cmds : List String) (t : Option Nat)
    (cwd : Option String) (s : Bool) :
    ((run_commands os cmds t cwd s).results.map (fun r => r.cmd)
        <+: filteredCmds cmds)
    ∧ ((run_commands os cmds t cwd s).stopped = false →
        (run_commands os cmds t cwd s).results.map (fun r => r.cmd)
          = filteredCmds cmds)
    ∧ (∀ a, run_commands_single_shell os cmds t cwd s = .ok a →
        ∀ r ∈ a.results, r.cmd ∈ cmds ∨ r.cmd = "")
    ∧ (∀ (delim : String) (st : ParseState) (line : String) (seg_i code : Int),
        pyStartsWith line (delim ++ " END ") = true →
        pyStrip line ≠ delim ++ " BEGIN " ++ toString st.expected →
        4 ≤ (pySplit (pyStrip line)).length →
        (pySplit (pyStrip line)).getD 0 "" = delim →
        (pySplit (pyStrip line)).getD 1 "" = "END" →
        pyInt ((pySplit (pyStrip line)).getD 2 "") = some seg_i →
        pyInt ((pySplit (pyStrip line)).getD 3 "") = some code →
        0 ≤ seg_i ∧ seg_i < (cmds.length : Int) →
        parseStep delim cmds st line =
          { results := st.results ++
              [{ cmd := cmds.getD seg_i.toNat "", ok := decide (code = 0),
                 code := some code, stdout := String.intercalate "\n" st.buf,
                 stderr := "", duration_sec := none }],
            idx := -1, buf := [], expected := st.expected + 1 }) := by
  refine ⟨(runLoop_cmds os t s (pyOr cwd) cmds).1,
    fun h => (runLoop_cmds os t s (pyOr cwd) cmds).2 h,
    fun a ha r hr => ((single_shell_ok_elim os cmds t cwd s a ha).1 r hr).2.1,
    ?_⟩
  intro delim st line seg_i code h0 h1 h2 h3 h4 h5 h6 h7
  unfold parseStep
  rw [if_neg h1, if_pos h0, if_pos ⟨h2, h3, h4⟩, h5, h6]
  show closeSegment cmds st seg_i code = _
  unfold closeSegment
  rw [if_pos h7]

/-- Witness for `cmd_attribution` at concrete inputs; the last conjunct
closes the segment opened for `BEGIN 0` via the marker
`__PS_DELIM_ab__ END 0 0`, attributing the result to the submitted entry
at the marker's parsed index 0. -/
theorem cmd_attribution_witness :
    ((run_commands osZero ["a"] none none false).results.map (fun r => r.cmd)
        <+: filteredCmds ["a"])
    ∧ ((run_commands osZero ["a"] none none false).results.map (fun r => r.cmd)
        = filteredCmds ["a"])
    ∧ (∀ r ∈ helloAgg.results, r.cmd ∈ ["echo hello"] ∨ r.cmd = "")
    ∧ parseStep "__PS_DELIM_ab__" ["echo hello"]
        { results := [], idx := 0, buf := ["hello"], expected := 0 }
        "__PS_DELIM_ab__ END 0 0"
      = { results := [{ cmd := "echo hello", ok := decide ((0 : Int) = 0),
                        code := some 0,
                        stdout := String.intercalate "\n" ["hello"],
                        stderr := "", duration_sec := none }],
          idx := -1, buf := [], expected := 1 } :=
  ⟨(cmd_attribution osZero ["a"] none none false).1,
   (cmd_attribution osZero ["a"] none none false).2.1 rfl,
   (cmd_attribution osShell ["echo hello"] none none false).2.2.1 helloAgg rfl,
   (cmd_attribution osShell ["echo hello"] none none false).2.2.2
      "__PS_DELIM_ab__" { results := [], idx := 0, buf := ["hello"], expected := 0 }
      "__PS_DELIM_ab__ END 0 0" 0 0 rfl (of_decide_eq_true rfl)
      (of_decide_eq_true rfl) rfl rfl rfl rfl (of_decide_eq_true rfl)⟩

/-- Claim C4, counterexample.  The claim says every line beginning with
`"<delim> END "` whose index or exit-code fields fail to parse still
closes the open segment and is never appended to a segment buffer.  A
truncated marker `"<delim> END x"` (only three whitespace-separated
fields, its index field unparsable) fails the `len(parts) >= 4` guard of
commands.py line 186 and falls through to the buffer-accumulation code of
lines 208-210: the open segment stays open, no result is produced, and
the marker line itself is buffered as ordinary output. -/
theorem short_end_marker_buffered :
    parseStep "__PS_DELIM_ab__" ["a"]
        { results := [], idx := 0, buf := [], expected := 0 }
        "__PS_DELIM_ab__ END x"
      = { results := [], idx := 0, buf := ["__PS_DELIM_ab__ END x"]
          expected := 0 }
    ∧ pyStartsWith "__PS_DELIM_ab__ END x" ("__PS_DELIM_ab__" ++ " END ") = true
    ∧ pyInt "x" = none :=
  ⟨rfl, rfl, rfl⟩

/-- Claim C4, amended: the recovery applies to END-prefixed lines that
split into at least four whitespace-separated fields — there a failing
`int()` conversion of the index or exit-code field still closes a
segment, with fallback index `idx if idx >= 0 else expected` and exit
code 1 (`closeSegment ... 1`).  An END-prefixed line with fewer than four
fields does not close anything: with a segment open it is appended to
that segment's buffer. -/
theorem end_marker_parse_fallback :
    (∀ (delim : String) (cmds : List String) (st : ParseState) (line : String),
      pyStartsWith line (delim ++ " END ") = true →
      pyStrip line ≠ delim ++ " BEGIN " ++ toString st.expected →
      4 ≤ (pySplit (pyStrip line)).length →
      (pySplit (pyStrip line)).getD 0 "" = delim →
      (pySplit (pyStrip line)).getD 1 "" = "END" →
      (pyInt ((pySplit (pyStrip line)).getD 2 "") = none
        ∨ pyInt ((pySplit (pyStrip line)).getD 3 "") = none) →
      parseStep delim cmds st line =
        closeSegment cmds st
          (if 0 ≤ st.idx then st.idx else (st.expected : Int)) 1)
    ∧ (∀ (delim : String) (cmds : List String) (st : ParseState) (line : String),
      pyStartsWith line (delim ++ " END ") = true →
      pyStrip line ≠ delim ++ " BEGIN " ++ toString st.expected →
      (pySplit (pyStrip line)).length < 4 →
      0 ≤ st.idx →
      parseStep delim cmds st line = { st with buf := st.buf ++ [line] }) := by
  constructor
  · intro delim cmds st line h0 h1 h2 h3 h4 h5
    unfold parseStep
    rw [if_neg h1, if_pos h0, if_pos ⟨h2, h3, h4⟩]
    rcases h5 with h5 | h5
    · rw [h5]
    · cases hA : pyInt ((pySplit (pyStrip line)).getD 2 "") with
      | none => rfl
      | some i => rw [h5]
  · intro delim cmds st line h0 h1 h2 hidx
    unfold parseStep
    rw [if_neg h1, if_pos h0, if_neg (fun hand => absurd hand.1 (by omega))]
    unfold appendLine
    rw [if_pos hidx]

/-- Witness for `end_marker_parse_fallback` at concrete inputs: a
four-field marker with unparsable index closes the open segment with
fallback index 0 and code 1; a three-field marker is buffered. -/
theorem end_marker_parse_fallback_witness :
    parseStep "__PS_DELIM_ab__" ["a"]
        { results := [], idx := 0, buf := [], expected := 0 }
        "__PS_DELIM_ab__ END x 0"
      = closeSegment ["a"]
          { results := [], idx := 0, buf := [], expected := 0 } 0 1
    ∧ parseStep "__PS_DELIM_ab__" ["a"]
        { results := [], idx := 1, buf := ["keep"], expected := 1 }
        "__PS_DELIM_ab__ END x"
      = { results := [], idx := 1, buf := ["keep", "__PS_DELIM_ab__ END x"]
          expected := 1 } :=
  ⟨end_marker_parse_fallback.1 "__PS_DELIM_ab__" ["a"]
      { results := [], idx := 0, buf := [], expected := 0 }
      "__PS_DELIM_ab__ END x 0" rfl (of_decide_eq_true rfl)
      (of_decide_eq_true rfl) rfl rfl (Or.inl rfl),
   end_marker_parse_fallback.2 "__PS_DELIM_ab__" ["a"]
      { results := [], idx := 1, buf := ["keep"], expected := 1 }
      "__PS_DELIM_ab__ END x" rfl (of_decide_eq_true rfl)
      (of_decide_eq_true rfl) (of_decide_eq_true rfl)⟩

/-- Claim C5 (confirmed): in every result of all three runners —
including the intercepted `cd` steps of the sequential runner — whenever
`code` is not null, `ok` holds exactly when `code = 0`. -/
theorem ok_iff_code_zero (os : OS) (cmd : String) (cmds : List String)
    (t : Option Nat) (cwd : Option String) (s : Bool) :
    okCodeInv (run_command os cmd t cwd)
    ∧ (∀ r ∈ (run_commands os cmds t cwd s).results, okCodeInv r.toCommandResult)
    ∧ (∀ a, run_commands_single_shell os cmds t cwd s = .ok a →
        ∀ r ∈ a.results, okCodeInv r.toCommandResult) :=
  ⟨run_command_okCode os cmd t cwd,
   fun r hr => runLoop_okCode os t s (pyOr cwd) cmds r hr,
   fun a ha r hr => ((single_shell_ok_elim os cmds t cwd s a ha).1 r hr).1⟩

/-- Witness for `ok_iff_code_zero` at concrete inputs: a plain command
with exit code 0, an intercepted `cd` step (code 1, `ok=false`), and a
single-session segment with exit code 0. -/
theorem ok_iff_code_zero_witness :
    (run_command osZero "x" none none).ok = decide ((0 : Int) = 0)
    ∧ cdNameErrorStep.toCommandResult.ok = decide ((1 : Int) = 0)
    ∧ helloStep.toCommandResult.ok = decide ((0 : Int) = 0) :=
  ⟨(ok_iff_code_zero osZero "x" [] none none false).1 0 rfl,
   (ok_iff_code_zero osZero "x" ["cd x"] none none false).2.1
      cdNameErrorStep (of_decide_eq_true rfl) 1 rfl,
   (ok_iff_code_zero osShell "x" ["echo hello"] none none false).2.2
      helloAgg rfl helloStep (of_decide_eq_true rfl) 0 rfl⟩

/-- Claim C6 (confirmed): when the spawned process exceeds its timeout,
`run_command` returns `ok=false`, `code=null`, the partial captured
streams, `stderr` with the `TIMEOUT` sentinel appended, and a measured
(non-null) duration. -/
theorem timeout_result_fields (os : OS) (cmd : String) (t : Option Nat)
    (cwd : Option String) (out err : Option String)
    (h : os.exec cmd t (pyOr cwd) = .error (.timeoutExpired out err)) :
    run_command os cmd t cwd =
      { ok := false, code := none, stdout := out.getD ""
        stderr := err.getD "" ++ "\nTIMEOUT", duration_sec := some os.elapsed }
    ∧ (run_command os cmd t cwd).duration_sec ≠ none := by
  unfold run_command
  rw [h]
  exact ⟨rfl, by simp⟩

/-- Witness for `timeout_result_fields` at a concrete input. -/
theorem timeout_result_fields_witness :
    run_command osPartialTO "sleep 5" (some 1) none =
      { ok := false, code := none, stdout := "partial"
        stderr := "errtxt" ++ "\nTIMEOUT", duration_sec := some 3 }
    ∧ (run_command osPartialTO "sleep 5" (some 1) none).duration_sec ≠ none :=
  timeout_result_fields osPartialTO "sleep 5" (some 1) none
    (some "partial") (some "errtxt") rfl

/-- Claim C7, counterexample.  The claim says that under
`stopOnError=true` a failing step makes `results` a STRICT prefix of the
filtered input.  When the failing command is the last (here: the only)
filtered entry, iteration does halt with `stopped=true`, but the recorded
commands equal the whole filtered input — a prefix that is not strict. -/
theorem stop_on_error_whole_list_prefix :
    (run_commands osFail ["false"] none none true).stopped = true
    ∧ (run_commands osFail ["false"] none none true).results.map (fun r => r.cmd)
        = filteredCmds ["false"]
    ∧ ¬((run_commands osFail ["false"] none none true).results.map (fun r => r.cmd)
          <+: filteredCmds ["false"]
        ∧ (run_commands osFail ["false"] none none true).results.map (fun r => r.cmd)
          ≠ filteredCmds ["false"]) := by
  refine ⟨rfl, rfl, ?_⟩
  rintro ⟨-, hne⟩
  exact hne rfl

/-- Claim C7, amended: under `stopOnError=true`, the recorded commands
are always a prefix of the filtered input (strict exactly when the
failing command is not the last filtered entry); if iteration did not
stop every recorded step succeeded, and if it stopped the results end at
the failing step, all earlier recorded steps succeeded, and no result
exists for any later command. -/
theorem stop_on_error_halt (os : OS) (cmds : List String) (t : Option Nat)
    (cwd : Option String) :
    ((run_commands os cmds t cwd true).results.map (fun r => r.cmd)
        <+: filteredCmds cmds)
    ∧ ((run_commands os cmds t cwd true).stopped = false →
        ∀ r ∈ (run_commands os cmds t cwd true).results, r.ok = true)
    ∧ ((run_commands os cmds t cwd true).stopped = true →
        ∃ rs r, (run_commands os cmds t cwd true).results = rs ++ [r]
          ∧ r.ok = false ∧ ∀ x ∈ rs, x.ok = true) :=
  ⟨(runLoop_cmds os t true (pyOr cwd) cmds).1,
   fun h => (runLoop_stop os t (pyOr cwd) cmds).1 h,
   fun h => (runLoop_stop os t (pyOr cwd) cmds).2 h⟩

/-- Witness for `stop_on_error_halt` at concrete inputs: a halting batch
(sole failing command) and a non-halting batch. -/
theorem stop_on_error_halt_witness :
    ((run_commands osFail [" false "] none none true).results.map (fun r => r.cmd)
        <+: filteredCmds [" false "])
    ∧ (∃ rs r, (run_commands osFail [" false "] none none true).results = rs ++ [r]
        ∧ r.ok = false ∧ ∀ x ∈ rs, x.ok = true)
    ∧ okStepA.ok = true :=
  ⟨(stop_on_error_halt osFail [" false "] none none).1,
   (stop_on_error_halt osFail [" false "] none none).2.2 rfl,
   (stop_on_error_halt osZero ["a"] none none).2.1 rfl okStepA
      (of_decide_eq_true rfl)⟩

/-- Claim C8 (confirmed): the sequential aggregate's `ok` is the
conjunction of its recorded results' `ok` (vacuously true when none ran);
both runners return `ok=true` with empty results on an empty batch — for
every oracle, i.e. without consulting the process-spawning oracle at
all. -/
theorem aggregate_ok_conjunction_and_empty_batch (os : OS)
    (cmds : List String) (t : Option Nat) (cwd : Option String) (s : Bool) :
    (run_commands os cmds t cwd s).ok
        = (run_commands os cmds t cwd s).results.all (fun r => r.ok)
    ∧ run_commands os [] t cwd s =
        { ok := true, stop_on_error := s, stopped := false, results := []
          exit_code := none }
    ∧ run_commands_single_shell os [] t cwd s =
        .ok { ok := true, stop_on_error := s, stopped := false, results := []
              exit_code := none } :=
  ⟨rfl, rfl, rfl⟩

/-- Claim C9 (confirmed): `stopped=true` only under `stop_on_error`:
with `stop_on_error=false` both runners always report `stopped=false`. -/
theorem stopped_only_if_requested (os : OS) (cmds : List String)
    (t : Option Nat) (cwd : Option String) :
    (run_commands os cmds t cwd false).stopped = false
    ∧ (∀ a, run_commands_single_shell os cmds t cwd false = .ok a →
        a.stopped = false) :=
  ⟨runLoop_no_stop os t (pyOr cwd) cmds,
   fun a ha => (single_shell_ok_elim os cmds t cwd false a ha).2 rfl⟩

/-- Witness for `stopped_only_if_requested` at concrete inputs. -/
theorem stopped_only_if_requested_witness :
    (run_commands osZero ["a"] none none false).stopped = false
    ∧ helloAgg.stopped = false :=
  ⟨(stopped_only_if_requested osZero ["a"] none none).1,
   (stopped_only_if_requested osShell ["echo hello"] none none).2
      helloAgg rfl⟩

/-- Claim C10 (confirmed): an END marker whose parsed segment index lies
outside `[0, cmds.length)` still appends a result, with `cmd` the empty
string (commands.py line 196). -/
theorem out_of_range_marker_empty_cmd
    (delim : String) (cmds : List String) (st : ParseState) (line : String)
    (seg_i code : Int)
    (h0 : pyStartsWith line (delim ++ " END ") = true)
    (h1 : pyStrip line ≠ delim ++ " BEGIN " ++ toString st.expected)
    (h2 : 4 ≤ (pySplit (pyStrip line)).length)
    (h3 : (pySplit (pyStrip line)).getD 0 "" = delim)
    (h4 : (pySplit (pyStrip line)).getD 1 "" = "END")
    (h5 : pyInt ((pySplit (pyStrip line)).getD 2 "") = some seg_i)
    (h6 : pyInt ((pySplit (pyStrip line)).getD 3 "") = some code)
    (h7 : ¬(0 ≤ seg_i ∧ seg_i < (cmds.length : Int))) :
    parseStep delim cmds st line =
      { results := st.results ++
          [{ cmd := "", ok := decide (code = 0), code := some code,
             stdout := String.intercalate "\n" st.buf, stderr := "",
             duration_sec := none }],
        idx := -1, buf := [], expected := st.expected + 1 } := by
  unfold parseStep
  rw [if_neg h1, if_pos h0, if_pos ⟨h2, h3, h4⟩, h5, h6]
  show closeSegment cmds st seg_i code = _
  unfold closeSegment
  rw [if_neg h7]

/-- Witness for `out_of_range_marker_empty_cmd` at a concrete input: the
marker index 99 against a one-command batch. -/
theorem out_of_range_marker_empty_cmd_witness :
    parseStep "__PS_DELIM_ab__" ["a"]
        { results := [], idx := -1, buf := [], expected := 0 }
        "__PS_DELIM_ab__ END 99 0"
      = { results := [{ cmd := "", ok := decide ((0 : Int) = 0),
                        code := some 0, stdout := String.intercalate "\n" [],
                        stderr := "", duration_sec := none }],
          idx := -1, buf := [], expected := 1 } :=
  out_of_range_marker_empty_cmd "__PS_DELIM_ab__" ["a"]
    { results := [], idx := -1, buf := [], expected := 0 }
    "__PS_DELIM_ab__ END 99 0" 99 0 rfl (of_decide_eq_true rfl)
    (of_decide_eq_true rfl) rfl rfl rfl rfl (of_decide_eq_true rfl)

end PersonalServer
